import Mathlib

/-!
# Verification of the avatar-reaction pipeline of the `wify` repository

Shallow embedding, in Lean 4, of the components of the repository that the
design specification describes: the emotion classifier (`detectEmotion` in
`AIContext`), the conversation orchestrator (`sendMessage` in `AIContext`),
the clap detector (`ClapDetector` in `clapDetection.ts`), the animation
selector (`getAnimationForEmotion` in `VirtualWife.tsx`) and the dance
cycler (the dance-switch effect in `VirtualWife.tsx`).

Conventions of the embedding:
* JavaScript numbers holding millisecond timestamps are modelled as `Int`
  (`Date.now()` values), byte frequency data (`Uint8Array` entries, 0-255)
  as `Nat`, and the one real-valued quantity (the mean amplitude
  `sum / length`) as `ℚ`.
* Stateful classes become explicit state records with pure step functions;
  the browser/React event loop becomes a list of timestamped events folded
  over the state.
* `async` functions that never reject are modelled as total functions:
  returning a value models the promise resolving with that value.
-/

namespace Wify

/-! ## Emotion classifier — `detectEmotion` in `src/contexts/AIContext.tsx`

The source builds an object of per-tag keyword lists, lower-cases the
input, iterates over `Object.entries(emotions)` in insertion order, and
returns the first tag one of whose keywords is a substring
(`String.prototype.includes`) of the lower-cased text, else `'default'`.
-/

/-- The per-tag keyword lists, in the insertion order of the `emotions`
object literal of `detectEmotion` (which is the iteration order of
`Object.entries` for string keys). -/
def emotionKeywords : List (String × List String) :=
  [ ("happy", ["happy", "joy", "excited", "great", "wonderful", "amazing", "love", "awesome"]),
    ("sad", ["sad", "cry", "upset", "depressed", "down", "hurt", "disappointed"]),
    ("angry", ["angry", "mad", "furious", "annoyed", "frustrated", "hate"]),
    ("laughing", ["funny", "hilarious", "laugh", "joke", "haha", "lol", "comedy"]),
    ("greeting", ["hello", "hi", "hey", "good morning", "good evening", "namaste"]),
    ("kiss", ["kiss", "love you", "romantic", "darling", "sweetheart", "honey"]),
    ("praying", ["pray", "god", "bless", "spiritual", "divine", "worship"]),
    ("dancing", ["music", "dance", "song", "play", "party", "celebration"]) ]

/-- Models `text.toLowerCase()`, as the per-character ASCII lower-casing
`Char.toLower` over the character list (the keyword lists are all ASCII, so
containment against them agrees with the JavaScript Unicode lower-casing). -/
def toLowerString (s : String) : String :=
  ⟨s.data.map Char.toLower⟩

/-- Tests whether `needle` occurs at the start of `haystack` (character lists). -/
def isPrefixOfChars : List Char → List Char → Bool
  | [], _ => true
  | _ :: _, [] => false
  | a :: as, b :: bs => (a == b) && isPrefixOfChars as bs

/-- Tests whether `needle` occurs as a contiguous run somewhere in `haystack`:
the prefix of some suffix. -/
def containsChars (kw : List Char) : List Char → Bool
  | [] => kw.isEmpty
  | b :: bs => isPrefixOfChars kw (b :: bs) || containsChars kw bs

/-- Models `lowerText.includes(keyword)`: substring containment, on the character
lists of the two strings. -/
def containsKeyword (lowerText : String) (kw : String) : Bool :=
  containsChars kw.data lowerText.data

/-- The `for (const [emotion, keywords] of Object.entries(emotions))` loop:
return the first tag whose keyword list has a containment match, else
`'default'`. -/
def findEmotion : List (String × List String) → String → String
  | [], _ => "default"
  | (tag, kws) :: rest, lowerText =>
    if kws.any (containsKeyword lowerText) then tag else findEmotion rest lowerText

/-- Models `detectEmotion(text)`: lower-case the input, then run the first-match
loop over the keyword lists. -/
def detectEmotion (text : String) : String :=
  findEmotion emotionKeywords (toLowerString text)

/-! Helper lemmas about the first-match loop. -/

lemma findEmotion_eq_find? (l : List (String × List String)) (lt : String) :
    findEmotion l lt =
      ((l.find? fun p => p.2.any (containsKeyword lt)).map Prod.fst).getD "default" := by
  induction l with
  | nil => rfl
  | cons hd tl ih =>
    obtain ⟨tag, kws⟩ := hd
    by_cases h : kws.any (containsKeyword lt) = true
    · simp [findEmotion, h, List.find?]
    · simp only [Bool.not_eq_true] at h
      simp [findEmotion, h, List.find?, ih]

lemma findEmotion_unique (l : List (String × List String)) (lt : String)
    (tag : String) (kws : List String)
    (hmem : (tag, kws) ∈ l)
    (hmatch : kws.any (containsKeyword lt) = true)
    (huniq : ∀ tag' kws', (tag', kws') ∈ l →
      kws'.any (containsKeyword lt) = true → tag' = tag) :
    findEmotion l lt = tag := by
  induction l with
  | nil => cases hmem
  | cons hd tl ih =>
    obtain ⟨t0, k0⟩ := hd
    by_cases h : k0.any (containsKeyword lt) = true
    · have := huniq t0 k0 (List.mem_cons_self _ _) h
      simp [findEmotion, h, this]
    · simp only [Bool.not_eq_true] at h
      rcases List.mem_cons.mp hmem with heq | htl
      · rw [Prod.mk.injEq] at heq
        rw [heq.2] at hmatch
        rw [hmatch] at h
        cases h
      · simp only [findEmotion, h, Bool.false_eq_true, if_false]
        exact ih htl fun tag' kws' hm hma =>
          huniq tag' kws' (List.mem_cons_of_mem _ hm) hma

lemma findEmotion_none (l : List (String × List String)) (lt : String)
    (hnone : ∀ tag kws, (tag, kws) ∈ l → kws.any (containsKeyword lt) = false) :
    findEmotion l lt = "default" := by
  induction l with
  | nil => rfl
  | cons hd tl ih =>
    obtain ⟨t0, k0⟩ := hd
    have h0 := hnone t0 k0 (List.mem_cons_self _ _)
    simp only [findEmotion, h0, Bool.false_eq_true, if_false]
    exact ih fun tag kws hm => hnone tag kws (List.mem_cons_of_mem _ hm)

/-- C2. The classifier lower-cases its input and tests it against the
per-tag keyword lists in the fixed priority order, returning the tag of
the first list with a containment match; a string containing a keyword of
exactly one emotion's list is classified as that emotion; a string
matching no list is classified `"default"`. The function is a total Lean
`def`, so it is defined (and never fails) on every input string. -/
theorem detectEmotion_spec :
    (∀ text : String, detectEmotion text =
      ((emotionKeywords.find? fun p => p.2.any (containsKeyword (toLowerString text))).map
        Prod.fst).getD "default")
    ∧ (∀ (text tag : String) (kws : List String),
        (tag, kws) ∈ emotionKeywords →
        kws.any (containsKeyword (toLowerString text)) = true →
        (∀ tag' kws', (tag', kws') ∈ emotionKeywords →
          kws'.any (containsKeyword (toLowerString text)) = true → tag' = tag) →
        detectEmotion text = tag)
    ∧ (∀ text : String,
        (∀ tag kws, (tag, kws) ∈ emotionKeywords →
          kws.any (containsKeyword (toLowerString text)) = false) →
        detectEmotion text = "default") := by
  refine ⟨fun text => ?_, fun text tag kws hmem hmatch huniq => ?_, fun text hnone => ?_⟩
  · exact findEmotion_eq_find? emotionKeywords (toLowerString text)
  · exact findEmotion_unique emotionKeywords (toLowerString text) tag kws hmem hmatch huniq
  · exact findEmotion_none emotionKeywords (toLowerString text) hnone

/-- The uniqueness side condition of C2's witness: on `"i am sad"`, only the
`sad` keyword list has a containment match. -/
lemma onlySadMatches :
    ∀ tag' kws', (tag', kws') ∈ emotionKeywords →
      kws'.any (containsKeyword (toLowerString "i am sad")) = true → tag' = "sad" := by
  intro tag' kws' hm hma
  simp only [emotionKeywords, List.mem_cons, List.not_mem_nil, or_false] at hm
  rcases hm with h | h | h | h | h | h | h | h <;>
    (rw [Prod.mk.injEq] at h; obtain ⟨h1, h2⟩ := h; subst h1; subst h2) <;>
    first
      | rfl
      | exact absurd hma (by decide)

/-- Witness for C2: `"i am sad"` contains a keyword (`"sad"`) of exactly
the `sad` list and of no other list, and is classified `"sad"`. -/
theorem detectEmotion_spec_witness :
    (("sad", ["sad", "cry", "upset", "depressed", "down", "hurt", "disappointed"])
        ∈ emotionKeywords
      ∧ (["sad", "cry", "upset", "depressed", "down", "hurt", "disappointed"] :
          List String).any (containsKeyword (toLowerString "i am sad")) = true
      ∧ (∀ tag' kws', (tag', kws') ∈ emotionKeywords →
          kws'.any (containsKeyword (toLowerString "i am sad")) = true → tag' = "sad"))
    ∧ detectEmotion "i am sad" = "sad" := by
  refine ⟨⟨by decide, by decide, onlySadMatches⟩, ?_⟩
  exact detectEmotion_spec.2.1 "i am sad" "sad"
    ["sad", "cry", "upset", "depressed", "down", "hurt", "disappointed"]
    (by decide) (by decide) onlySadMatches

/-! ## Clap detector — `ClapDetector` in `src/utils/clapDetection.ts`

The class holds a Web Audio analyser and a polling loop `detectClaps`
driven by `requestAnimationFrame`. The embedding keeps the fields the
algorithm reads or writes: `analyser`, `dataArray` and `onClapCallback`
are collapsed to presence flags (`hasAnalyser` covers both `analyser` and
`dataArray`, which are always set together), `lastClapTime`,
`clapThreshold` and `clapCooldown` are kept as numbers. One invocation of
`detectClaps` on a frequency snapshot (`bins`) at time `now` becomes the
pure step `detectClapsTick`. -/

/-- The mutable fields of `ClapDetector` that the algorithm touches. -/
structure ClapDetectorState where
  isListening : Bool
  hasAnalyser : Bool
  hasCallback : Bool
  lastClapTime : Int
  clapThreshold : Int
  clapCooldown : Int
deriving DecidableEq, Repr

/-- The field initialisers of the class:
`isListening = false`, all object fields `null`, `lastClapTime = 0`,
`clapThreshold = 150`, `clapCooldown = 1000`. -/
def ClapDetectorState.new : ClapDetectorState :=
  { isListening := false, hasAnalyser := false, hasCallback := false,
    lastClapTime := 0, clapThreshold := 150, clapCooldown := 1000 }

/-- Models `average = dataArray.reduce((sum, v) => sum + v, 0) / dataArray.length`:
the mean amplitude over all frequency bins, as an exact rational
(for the empty array the JavaScript value is `NaN` and every comparison
with it is false; `ℚ` division by zero gives `0`, and `0 > 50` is false
too, so the guard below agrees). -/
def averageAmplitude (bins : List Nat) : ℚ :=
  (bins.sum : ℚ) / (bins.length : ℚ)

/-- The guard `average > 50`, in the integer-exact form
`50 * length < sum` (the floating-point comparison agrees: the sums
involved are far below 2^53, and `averageExceedsFloor_iff` below proves it
equal to the rational-mean comparison, which the floating-point division
decides exactly enough at this scale). -/
def averageExceedsFloor (bins : List Nat) : Bool :=
  decide (50 * bins.length < bins.sum)

/-- The guard `averageExceedsFloor` is exactly `average > 50` on the rational mean. -/
lemma averageExceedsFloor_iff (bins : List Nat) :
    averageExceedsFloor bins = true ↔ (50 : ℚ) < averageAmplitude bins := by
  rcases Nat.eq_zero_or_pos bins.length with h0 | hpos
  · rw [List.length_eq_zero] at h0
    subst h0
    simp [averageExceedsFloor, averageAmplitude]
  · have hq : (0 : ℚ) < (bins.length : ℚ) := by exact_mod_cast hpos
    rw [averageExceedsFloor, decide_eq_true_eq, averageAmplitude,
      lt_div_iff₀ hq]
    exact ⟨fun h => by exact_mod_cast h, fun h => by exact_mod_cast h⟩

/-- Models `Math.floor(dataArray.length * 0.6)`. For every array length that
occurs (the analyser is configured with `fftSize = 512`, so
`dataArray.length = 256` and the value is `153`) the floating-point
product floors to `⌊6·n/10⌋`. -/
def highFreqStart (n : Nat) : Nat := 6 * n / 10

/-- Models `dataArray.slice(highFreqStart)`: the top 40% of the frequency bins. -/
def highFreqData (bins : List Nat) : List Nat :=
  bins.drop (highFreqStart bins.length)

/-- Models `Math.max(...highFreqData) > threshold`: some bin of the top-40% slice
exceeds the threshold. (For the empty slice `Math.max()` is `-Infinity`
and the comparison is false; `List.any` on `[]` is `false` too.) -/
def peakExceeds (bins : List Nat) (threshold : Int) : Bool :=
  (highFreqData bins).any fun v => threshold < (v : Int)

/-- The firing condition of one `detectClaps` pass: the early return
`!isListening || !analyser || !dataArray` followed by
`highFreqPeak > clapThreshold && average > 50 &&
timeSinceLastClap > clapCooldown` with `timeSinceLastClap = now - lastClapTime`. -/
def clapFireCond (now : Int) (bins : List Nat) (s : ClapDetectorState) : Bool :=
  s.isListening && s.hasAnalyser &&
    (peakExceeds bins s.clapThreshold &&
      averageExceedsFloor bins &&
      decide (s.clapCooldown < now - s.lastClapTime))

/-- One `detectClaps` pass on snapshot `bins` at time `now`: on fire it
sets `lastClapTime := now` and, if a callback is registered, invokes it
once. The returned `Nat` counts the callback invocations of this pass. -/
def detectClapsTick (now : Int) (bins : List Nat) (s : ClapDetectorState) :
    ClapDetectorState × Nat :=
  if clapFireCond now bins s then
    ({ s with lastClapTime := now }, if s.hasCallback then 1 else 0)
  else (s, 0)

/-- The times at which a run of the polling loop over the timestamped
snapshots `samples` fires (sets `lastClapTime` and, when a callback is
registered, invokes it). -/
def clapFireTimes : List (Int × List Nat) → ClapDetectorState → List Int
  | [], _ => []
  | (t, bins) :: rest, s =>
    if clapFireCond t bins s then t :: clapFireTimes rest { s with lastClapTime := t }
    else clapFireTimes rest s

/-- Total number of callback invocations over a run of the polling loop. -/
def clapInvocationCount : List (Int × List Nat) → ClapDetectorState → Nat
  | [], _ => 0
  | (t, bins) :: rest, s =>
    (detectClapsTick t bins s).2 + clapInvocationCount rest (detectClapsTick t bins s).1

lemma clapFireTimes_chain (samples : List (Int × List Nat)) :
    ∀ (s : ClapDetectorState) (c : Int), s.clapCooldown = c →
      List.Chain (fun a b => c < b - a) s.lastClapTime (clapFireTimes samples s) := by
  induction samples with
  | nil => intro s c _; exact List.Chain.nil
  | cons hd rest ih =>
    intro s c hc
    obtain ⟨t, bins⟩ := hd
    by_cases h : clapFireCond t bins s = true
    · have hstep : c < t - s.lastClapTime := by
        have h' := h
        simp only [clapFireCond, Bool.and_eq_true, decide_eq_true_eq] at h'
        subst hc
        tauto
      simp only [clapFireTimes, h, if_true]
      exact List.Chain.cons hstep (ih { s with lastClapTime := t } c hc)
    · simp only [Bool.not_eq_true] at h
      simp only [clapFireTimes, h, Bool.false_eq_true, if_false]
      exact ih s c hc

lemma clapInvocationCount_eq_length (samples : List (Int × List Nat)) :
    ∀ s : ClapDetectorState, s.hasCallback = true →
      clapInvocationCount samples s = (clapFireTimes samples s).length := by
  induction samples with
  | nil => intro s _; rfl
  | cons hd rest ih =>
    intro s hcb
    obtain ⟨t, bins⟩ := hd
    by_cases h : clapFireCond t bins s = true
    · have htick : detectClapsTick t bins s = ({ s with lastClapTime := t }, 1) := by
        simp [detectClapsTick, h, hcb]
      simp only [clapInvocationCount, clapFireTimes, htick, h, if_true, List.length_cons]
      rw [ih { s with lastClapTime := t } hcb]
      omega
    · have htick : detectClapsTick t bins s = (s, 0) := by
        simp [detectClapsTick, h]
      simp only [Bool.not_eq_true] at h
      simp only [clapInvocationCount, clapFireTimes, htick, h,
        Bool.false_eq_true, if_false]
      rw [ih s hcb]
      omega

/-- The two-peaks-200-ms-apart scenario of the claim: threshold 150
(default), cooldown 1000 ms (default), listening with analyser and
callback in place. -/
def clapExampleState : ClapDetectorState :=
  { ClapDetectorState.new with isListening := true, hasAnalyser := true, hasCallback := true }

/-- Two sampling ticks 200 ms apart whose peak amplitude (200) stays above
the threshold 150 and whose mean (200) stays above the floor 50. -/
def clapExampleSamples : List (Int × List Nat) :=
  [(5000, List.replicate 10 200), (5200, List.replicate 10 200)]

/-- C3. Over any sequence of sampling ticks, consecutive firings of the
clap detector are separated by more than the cooldown (`List.Chain`
anchored at the stored `lastClapTime`, so the first firing also respects
the cooldown against the stored time); when a callback is registered,
every firing is exactly one callback invocation, so the callback is never
invoked twice within one cooldown window; and in the concrete scenario
(threshold 150, cooldown 1000 ms, two above-threshold peaks 200 ms apart)
the detector fires exactly once. -/
theorem clapDetector_no_double_fire :
    (∀ (samples : List (Int × List Nat)) (s : ClapDetectorState),
      List.Chain (fun a b => s.clapCooldown < b - a) s.lastClapTime
        (clapFireTimes samples s))
    ∧ (∀ (samples : List (Int × List Nat)) (s : ClapDetectorState),
        s.hasCallback = true →
        clapInvocationCount samples s = (clapFireTimes samples s).length)
    ∧ (clapFireTimes clapExampleSamples clapExampleState).length = 1
    ∧ clapInvocationCount clapExampleSamples clapExampleState = 1 := by
  refine ⟨fun samples s => clapFireTimes_chain samples s s.clapCooldown rfl,
    clapInvocationCount_eq_length, by decide, by decide⟩

/-- Witness for C3: the second conjunct applied to the concrete scenario
(the callback is registered there). -/
theorem clapDetector_no_double_fire_witness :
    clapExampleState.hasCallback = true
    ∧ clapInvocationCount clapExampleSamples clapExampleState
        = (clapFireTimes clapExampleSamples clapExampleState).length :=
  ⟨rfl, clapDetector_no_double_fire.2.1 clapExampleSamples clapExampleState rfl⟩

/-- C4. One sampling tick of a listening detector with analyser and
callback in place fires — invokes the callback exactly once and sets the
stored `lastClapTime` to `now` — if and only if the peak over the top 40%
of the bins exceeds the threshold, the mean over all bins exceeds the
floor 50, and the time since the last fire exceeds the cooldown; it never
invokes the callback more than once per tick, and a non-firing tick
leaves the state unchanged. -/
theorem detectClaps_fire_iff (now : Int) (bins : List Nat) (s : ClapDetectorState)
    (hl : s.isListening = true) (ha : s.hasAnalyser = true)
    (hcb : s.hasCallback = true) :
    ((detectClapsTick now bins s).2 = 1 ↔
      (peakExceeds bins s.clapThreshold = true ∧ (50 : ℚ) < averageAmplitude bins
        ∧ s.clapCooldown < now - s.lastClapTime))
    ∧ (detectClapsTick now bins s).2 ≤ 1
    ∧ ((detectClapsTick now bins s).2 = 1 →
        (detectClapsTick now bins s).1 = { s with lastClapTime := now })
    ∧ ((detectClapsTick now bins s).2 = 0 → (detectClapsTick now bins s).1 = s) := by
  by_cases h : clapFireCond now bins s = true
  · have htick : detectClapsTick now bins s = ({ s with lastClapTime := now }, 1) := by
      simp [detectClapsTick, h, hcb]
    have hcond : peakExceeds bins s.clapThreshold = true
        ∧ (50 : ℚ) < averageAmplitude bins
        ∧ s.clapCooldown < now - s.lastClapTime := by
      have h' := h
      simp only [clapFireCond, Bool.and_eq_true, decide_eq_true_eq] at h'
      refine ⟨by tauto, (averageExceedsFloor_iff bins).mp (by tauto), by tauto⟩
    rw [htick]
    exact ⟨⟨fun _ => hcond, fun _ => rfl⟩, le_refl 1, fun _ => rfl,
      fun h0 => by simp at h0⟩
  · have htick : detectClapsTick now bins s = (s, 0) := by
      simp [detectClapsTick, h]
    have hncond : ¬(peakExceeds bins s.clapThreshold = true
        ∧ (50 : ℚ) < averageAmplitude bins ∧ s.clapCooldown < now - s.lastClapTime) := by
      intro hs
      apply h
      have havg := (averageExceedsFloor_iff bins).mpr hs.2.1
      simp only [clapFireCond, hl, ha, Bool.true_and, Bool.and_eq_true,
        decide_eq_true_eq]
      tauto
    rw [htick]
    exact ⟨⟨fun h1 => by simp at h1, fun hs => absurd hs hncond⟩,
      by simp, fun h1 => by simp at h1, fun _ => rfl⟩

/-- Witness for C4: the firing tick of the C3 scenario, with the firing
condition evaluated on concrete bins. -/
theorem detectClaps_fire_iff_witness :
    (clapExampleState.isListening = true ∧ clapExampleState.hasAnalyser = true
      ∧ clapExampleState.hasCallback = true)
    ∧ (((detectClapsTick 5000 (List.replicate 10 200) clapExampleState).2 = 1 ↔
        (peakExceeds (List.replicate 10 200) clapExampleState.clapThreshold = true
          ∧ (50 : ℚ) < averageAmplitude (List.replicate 10 200)
          ∧ clapExampleState.clapCooldown < 5000 - clapExampleState.lastClapTime))
      ∧ (detectClapsTick 5000 (List.replicate 10 200) clapExampleState).2 ≤ 1
      ∧ ((detectClapsTick 5000 (List.replicate 10 200) clapExampleState).2 = 1 →
          (detectClapsTick 5000 (List.replicate 10 200) clapExampleState).1
            = { clapExampleState with lastClapTime := 5000 })
      ∧ ((detectClapsTick 5000 (List.replicate 10 200) clapExampleState).2 = 0 →
          (detectClapsTick 5000 (List.replicate 10 200) clapExampleState).1
            = clapExampleState)) :=
  ⟨⟨rfl, rfl, rfl⟩,
    detectClaps_fire_iff 5000 (List.replicate 10 200) clapExampleState rfl rfl rfl⟩

/-! ### `initialize`, `start`, `stop`, `setSensitivity` -/

/-- Models `initialize(onClap)`: stores the callback, then requests the
microphone. `mediaGranted` stands for `getUserMedia` resolving; on grant
the analyser and data array are created and `true` is returned, on denial
the `catch` block returns `false` and nothing beyond the callback has been
set. There is no retry: the function returns directly from the `catch`. -/
def initClapDetector (mediaGranted : Bool) (s : ClapDetectorState) : ClapDetectorState × Bool :=
  let s1 := { s with hasCallback := true }
  if mediaGranted then ({ s1 with hasAnalyser := true }, true) else (s1, false)

/-- Models `start()`: `if (!analyser || !dataArray || isListening) return;` then
set `isListening` and begin the polling loop. -/
def start (s : ClapDetectorState) : ClapDetectorState :=
  if !s.hasAnalyser || s.isListening then s else { s with isListening := true }

/-- Models `stop()`: clear `isListening`. -/
def stop (s : ClapDetectorState) : ClapDetectorState :=
  { s with isListening := false }

/-- Models `setSensitivity(sensitivity)`: `clapThreshold = 100 + sensitivity * 20`
(the comment in the source: 1 = most sensitive, 10 = least sensitive). -/
def setSensitivity (sensitivity : Int) (s : ClapDetectorState) : ClapDetectorState :=
  { s with clapThreshold := 100 + sensitivity * 20 }

/-- The operations a client can apply to a detector after initialisation. -/
inductive ClapOp where
  | start : ClapOp
  | stop : ClapOp
  | tick (now : Int) (bins : List Nat) : ClapOp
  | setSensitivity (v : Int) : ClapOp

/-- Run a sequence of operations, counting callback invocations. -/
def clapOpRun : List ClapOp → ClapDetectorState → ClapDetectorState × Nat
  | [], s => (s, 0)
  | op :: rest, s =>
    match op with
    | .start =>
      let r := clapOpRun rest (start s); (r.1, r.2)
    | .stop =>
      let r := clapOpRun rest (stop s); (r.1, r.2)
    | .tick now bins =>
      let p := detectClapsTick now bins s
      let r := clapOpRun rest p.1
      (r.1, p.2 + r.2)
    | .setSensitivity v =>
      let r := clapOpRun rest (setSensitivity v s); (r.1, r.2)

lemma clapOpRun_no_analyser (ops : List ClapOp) :
    ∀ s : ClapDetectorState, s.hasAnalyser = false → (clapOpRun ops s).2 = 0 := by
  induction ops with
  | nil => intro s _; rfl
  | cons op rest ih =>
    intro s hna
    cases op with
    | start =>
      have : start s = s := by
        simp [start, hna]
      simp only [clapOpRun, this]
      exact ih s hna
    | stop =>
      simp only [clapOpRun]
      exact ih (stop s) hna
    | tick now bins =>
      have hfc : clapFireCond now bins s = false := by
        simp [clapFireCond, hna]
      have htick : detectClapsTick now bins s = (s, 0) := by
        simp [detectClapsTick, hfc]
      simp only [clapOpRun, htick]
      simpa using ih s hna
    | setSensitivity v =>
      simp only [clapOpRun]
      exact ih (setSensitivity v s) hna

/-- C8. If `getUserMedia` is denied on a fresh detector, the initialisation
resolves to `false` (the failure is reported to the caller as the boolean,
with no retry inside the function), `start()` on the resulting state is a
no-op, and no sequence of subsequent `start`/`stop`/`tick`/`setSensitivity`
operations ever invokes the registered callback. -/
theorem clapInitFailure_disables :
    (initClapDetector false ClapDetectorState.new).2 = false
    ∧ start (initClapDetector false ClapDetectorState.new).1
        = (initClapDetector false ClapDetectorState.new).1
    ∧ (∀ ops : List ClapOp,
        (clapOpRun ops (initClapDetector false ClapDetectorState.new).1).2 = 0) :=
  ⟨rfl, rfl, fun ops => clapOpRun_no_analyser ops _ rfl⟩

/-- C9. The sensitivity knob maps inversely to detection sensitivity: a
strictly larger sensitivity in `[1, 10]` yields a strictly larger clap
threshold, i.e. a less sensitive detector. -/
theorem setSensitivity_strictMono (s1 s2 : Int) (st : ClapDetectorState)
    (h1 : 1 ≤ s1) (h12 : s1 < s2) (h10 : s2 ≤ 10) :
    (setSensitivity s1 st).clapThreshold < (setSensitivity s2 st).clapThreshold := by
  simp only [setSensitivity]
  omega

/-- Witness for C9: sensitivities 3 and 7 give thresholds 160 < 240. -/
theorem setSensitivity_strictMono_witness :
    ((1 : Int) ≤ 3 ∧ (3 : Int) < 7 ∧ (7 : Int) ≤ 10)
    ∧ (setSensitivity 3 ClapDetectorState.new).clapThreshold
        < (setSensitivity 7 ClapDetectorState.new).clapThreshold :=
  ⟨⟨by decide, by decide, by decide⟩,
    setSensitivity_strictMono 3 7 ClapDetectorState.new (by decide) (by decide) (by decide)⟩

/-! ## Conversation orchestrator — `sendMessage` in `src/contexts/AIContext.tsx`

`sendMessage` sets `isProcessing`, classifies the message, tries the
automation grammars, otherwise awaits the selected LLM provider inside a
`try`; the `catch` converts any rejection to a fixed apology string. The
external collaborators are parameters of the embedding: `automationParsed`
is the combined outcome of the research/app/browser command parsers and
their executors (all return `null` on plain conversational input such as
`"hello"`), and `ProviderOutcome` is the result of the awaited provider
call (`failure` models the call throwing or rejecting). The function being
total models the promise always resolving. -/

/-- One record of the append-only `trainingData` log in local storage
(`saveTrainingData`). -/
structure ConversationTurn where
  timestamp : String
  user : String
  input : String
  output : String
  language : String
  emotion : String
deriving DecidableEq, Repr

/-- The settings fields `sendMessage` reads. -/
structure AISettings where
  userName : String
  wifeName : String
  personality : String
  relationshipContext : String
  language : String
  enableAppAutomation : Bool
deriving DecidableEq, Repr

/-- The `AIProvider` component state that `sendMessage` touches. -/
structure AIState where
  currentResponse : String
  currentEmotion : String
  isProcessing : Bool
  trainingData : List ConversationTurn
deriving DecidableEq, Repr

/-- Outcome of the awaited provider call in the `switch` over
`settings.aiProvider`: `success t` is the call resolving with reply text
`t` (also `t = ""` when no API key is configured, since every branch is
guarded by `if (settings.apiKey)`), `failure` is the call throwing or
rejecting. -/
inductive ProviderOutcome where
  | success (text : String) : ProviderOutcome
  | failure : ProviderOutcome
deriving DecidableEq, Repr

/-- Models `saveTrainingData(input, output)`: append one record. Inside a single
`sendMessage` call the `currentEmotion` closure variable still holds the
pre-call React state value (a `setCurrentEmotion` during the call does not
change the binding the closure reads), so the record's emotion is the
emotion field of the state at entry. -/
def saveTrainingData (settings : AISettings) (timestamp input output emotion : String)
    (log : List ConversationTurn) : List ConversationTurn :=
  log ++ [{ timestamp := timestamp, user := settings.userName, input := input,
            output := output, language := settings.language, emotion := emotion }]

/-- The no-API-key fallback reply built when the provider `switch` leaves
`response` empty. -/
def apiKeyFallback (settings : AISettings) : String :=
  "Hello " ++ settings.userName ++ ", my love! I'm " ++ settings.wifeName ++
    ", your devoted virtual wife. I'd love to chat with you, but I need an API key to be configured in settings first. Once that's set up, I can help you with anything you need, darling! 💕"

/-- The fixed apology string of the `catch` block. -/
def apologyResponse (settings : AISettings) : String :=
  "I'm sorry " ++ settings.userName ++
    ", my darling. I'm having trouble connecting right now. Please check the settings and try again. I'm here for you always! 💕"

/-- Models `sendMessage(message)`. Returns the new component state and the string
the promise resolves with. The `finally` block clears `isProcessing` on
every path (its 3-second timer that later resets the emotion is outside
this call and not modelled). -/
def sendMessage (settings : AISettings) (automationParsed : Option String)
    (provider : ProviderOutcome) (timestamp message : String) (s : AIState) :
    AIState × String :=
  let s1 : AIState := { s with isProcessing := true, currentEmotion := detectEmotion message }
  let automationResponse : Option String :=
    if settings.enableAppAutomation then automationParsed else none
  match automationResponse with
  | some r =>
    ({ s1 with
        currentResponse := r,
        trainingData := saveTrainingData settings timestamp message r s.currentEmotion s.trainingData,
        isProcessing := false }, r)
  | none =>
    match provider with
    | .success t =>
      let response := if t = "" then apiKeyFallback settings else t
      ({ s1 with
          currentResponse := response,
          trainingData := saveTrainingData settings timestamp message response s.currentEmotion s.trainingData,
          isProcessing := false }, response)
    | .failure =>
      ({ s1 with
          currentResponse := apologyResponse settings,
          isProcessing := false },
        apologyResponse settings)

/-- The concrete scenario of the claim: default-ish settings, an empty
log, a provider call that rejects, and the message `"hello"` (which
matches none of the automation grammars, so `handleAutomationCommands`
returns `null`). -/
def c1Settings : AISettings :=
  { userName := "User", wifeName := "Aria", personality := "loving",
    relationshipContext := "wife", language := "en", enableAppAutomation := true }

/-- Component state with an empty `trainingData` log. -/
def c1State : AIState :=
  { currentResponse := "", currentEmotion := "default", isProcessing := false,
    trainingData := [] }

/-- C1, counterexample. With the provider call rejecting,
`sendMessage("hello")` does resolve to the fixed apology string, but it
appends NO `ConversationTurn` to the log: the `catch` path returns before
`saveTrainingData` is reached, so the log still has length 0, not 1. -/
theorem sendMessage_error_no_append :
    (sendMessage c1Settings none .failure "t0" "hello" c1State).2
        = apologyResponse c1Settings
    ∧ (sendMessage c1Settings none .failure "t0" "hello" c1State).1.trainingData.length = 0
    ∧ ¬ ((sendMessage c1Settings none .failure "t0" "hello" c1State).1.trainingData.length
          = c1State.trainingData.length + 1) := by
  refine ⟨rfl, rfl, ?_⟩
  intro h
  simp [sendMessage, c1State] at h

/-- C1 as amended. If the provider call throws or rejects (on a message
the automation grammars do not claim), `sendMessage` resolves — it returns
a value rather than propagating the fault — with the fixed apology string,
and leaves the persisted `ConversationTurn` log unchanged: no record is
appended on the error path. -/
theorem sendMessage_error_resolves :
    ∀ (settings : AISettings) (timestamp message : String) (s : AIState),
      (sendMessage settings none .failure timestamp message s).2 = apologyResponse settings
      ∧ (sendMessage settings none .failure timestamp message s).1.trainingData
          = s.trainingData := by
  intro settings timestamp message s
  constructor
  · simp [sendMessage]
  · simp [sendMessage]

/-! ## Animation selector — `getAnimationForEmotion` in
`src/components/VirtualWife.tsx`

The source function closes over `manualAnimation` (the manual override,
`''` when cleared) and `settings.autoDance`; its explicit arguments are
the emotion tag and the music flag. JavaScript truthiness of the override
string is `≠ ""`. -/

/-- The dance list `danceAnimations` of `VRMModel`. -/
def danceAnimations : List String := ["Hip Hop Dancing", "Rumba Dancing"]

/-- The `emotionMap` object literal of `getAnimationForEmotion`. -/
def emotionMap : List (String × String) :=
  [ ("happy", "Happy"), ("sad", "Sad Idle"), ("angry", "Angry"),
    ("laughing", "Laughing"), ("greeting", "Standing Greeting"),
    ("dancing", "Hip Hop Dancing"), ("praying", "Praying"),
    ("kiss", "Kiss"), ("default", "Female Laying Pose") ]

/-- Models `getAnimationForEmotion(emotion, musicPlaying)` with its closure state
made explicit: manual override first, then the music/auto-dance branch
(returning `'Hip Hop Dancing'`, auto-switching is the Dance Cycler's job),
then the emotion table with `emotionMap[emotion] || emotionMap.default`. -/
def getAnimationForEmotion (manualAnimation : String) (autoDance : Bool)
    (emotion : String) (musicPlaying : Bool) : String :=
  if manualAnimation ≠ "" then manualAnimation
  else if musicPlaying && autoDance then "Hip Hop Dancing"
  else
    match emotionMap.find? (fun p => p.1 == emotion) with
    | some p => p.2
    | none => "Female Laying Pose"

/-- C5. With music playing, auto-dance enabled and no manual override, the
selector returns a dance animation id for every emotion tag — always
`'Hip Hop Dancing'`, which is in the dance list — never a non-dance id. -/
theorem getAnimationForEmotion_dance (emotion : String) :
    getAnimationForEmotion "" true emotion true = "Hip Hop Dancing"
    ∧ getAnimationForEmotion "" true emotion true ∈ danceAnimations := by
  constructor
  · rfl
  · have h : getAnimationForEmotion "" true emotion true = "Hip Hop Dancing" := rfl
    rw [h]
    decide

/-- C6. A non-empty manual override is returned for every emotion tag,
music state and auto-dance setting; the selector only leaves the override
branch when the override is cleared back to `""`. -/
theorem getAnimationForEmotion_override (m emotion : String)
    (musicPlaying autoDance : Bool) (hm : m ≠ "") :
    getAnimationForEmotion m autoDance emotion musicPlaying = m := by
  simp [getAnimationForEmotion, hm]

/-- Witness for C6: the override `"Kiss"` wins over a happy emotion with
music playing. -/
theorem getAnimationForEmotion_override_witness :
    ("Kiss" : String) ≠ ""
    ∧ getAnimationForEmotion "Kiss" true "happy" true = "Kiss" :=
  ⟨by decide, getAnimationForEmotion_override "Kiss" "happy" true true (by decide)⟩

/-! ## Dance cycler — the dance-switch effect of `VRMModel` in
`src/components/VirtualWife.tsx`

The effect `useEffect(..., [isMusic, mixer, animations, danceIndex,
currentAction, manualAnimation])` returns early (scheduling nothing) when
`!isMusic || !mixer || danceAnimations.length === 0 || manualAnimation`,
otherwise schedules `setInterval(switchDance, 15000)`; its cleanup
`clearInterval`s the previous handle. React re-runs the effect (cleanup
first) whenever a dependency changes — in particular after every
`setDanceIndex` of `switchDance` itself and after every music/override
change. The embedding keeps one optional timer deadline: `some d` is an
armed interval whose next fire is due at `d`; re-running the effect
overwrites it (the old handle is cleared). An event trace is a list of
timestamped events with nondecreasing times; `timerFire` before the
deadline is a no-op (the browser does not deliver an interval callback
early). `switchDance` advances `danceIndex` by one modulo the dance-list
length before anything else, so an advance is counted even if the next
clip is missing from `animations`. -/

/-- Models `setInterval(switchDance, 15000)`: the configured interval (ms). -/
def danceSwitchInterval : Int := 15000

/-- The state the dance-switch effect reads and writes. `mixerReady`
models `mixer` being non-null. -/
structure DanceCyclerState where
  danceIndex : Nat
  timerDeadline : Option Int
  isMusic : Bool
  mixerReady : Bool
  manualAnimation : String
deriving DecidableEq, Repr

/-- The negation of the effect's early return
`!isMusic || !mixer || danceAnimations.length === 0 || manualAnimation`:
schedule only when music plays, the mixer exists, the dance list is
non-empty and no manual override is set. -/
def scheduleGuard (s : DanceCyclerState) : Bool :=
  s.isMusic && s.mixerReady && !danceAnimations.isEmpty && (s.manualAnimation == "")

/-- One React effect run at time `now`: the cleanup clears the previous
interval; the body schedules a fresh one (next fire at `now + 15000`) iff
the guard passes. -/
def effectRun (now : Int) (s : DanceCyclerState) : DanceCyclerState :=
  if scheduleGuard s then { s with timerDeadline := some (now + danceSwitchInterval) }
  else { s with timerDeadline := none }

/-- The events that drive the effect: a music-state change, a manual
override change, or the armed interval firing. -/
inductive DanceCyclerEvent where
  | setMusic (b : Bool) : DanceCyclerEvent
  | setOverride (m : String) : DanceCyclerEvent
  | timerFire : DanceCyclerEvent
deriving DecidableEq, Repr

/-- One event at time `now`. State changes re-run the effect (dependency
change). A `timerFire` is delivered only when an interval is armed and its
deadline has passed; `switchDance` then advances the index by one modulo
the list length, and the `setDanceIndex` re-runs the effect, restarting
the interval. The returned flag marks an index advance. -/
def cyclerStep (now : Int) (e : DanceCyclerEvent) (s : DanceCyclerState) :
    DanceCyclerState × Bool :=
  match e with
  | .setMusic b => (effectRun now { s with isMusic := b }, false)
  | .setOverride m => (effectRun now { s with manualAnimation := m }, false)
  | .timerFire =>
    match s.timerDeadline with
    | none => (s, false)
    | some d =>
      if now < d then (s, false)
      else
        (effectRun now
          { s with danceIndex := (s.danceIndex + 1) % danceAnimations.length }, true)

/-- The times at which a trace of events advances the dance index. -/
def cyclerTrace : List (Int × DanceCyclerEvent) → DanceCyclerState → List Int
  | [], _ => []
  | (t, e) :: rest, s =>
    if (cyclerStep t e s).2 then t :: cyclerTrace rest (cyclerStep t e s).1
    else cyclerTrace rest (cyclerStep t e s).1

lemma effectRun_deadline (now : Int) (s : DanceCyclerState) (d : Int)
    (h : (effectRun now s).timerDeadline = some d) : d = now + danceSwitchInterval := by
  by_cases hg : scheduleGuard s = true
  · simp only [effectRun, hg, if_true] at h
    exact (Option.some.injEq _ _ ▸ h).symm
  · simp only [Bool.not_eq_true] at hg
    simp [effectRun, hg] at h

lemma chain'_le_shrink {lb t : Int} {ts : List Int}
    (hlbt : lb ≤ t) (h : List.Chain' (· ≤ ·) (t :: ts)) :
    List.Chain' (· ≤ ·) (lb :: ts) := by
  cases ts with
  | nil => simp
  | cons u us =>
    obtain ⟨htu, h'⟩ := List.chain'_cons.mp h
    exact List.chain'_cons.mpr ⟨le_trans hlbt htu, h'⟩

lemma cyclerTrace_chain (events : List (Int × DanceCyclerEvent)) :
    ∀ (s : DanceCyclerState) (lb : Int),
      List.Chain' (· ≤ ·) (lb :: events.map Prod.fst) →
      (∀ d, s.timerDeadline = some d → lb + danceSwitchInterval ≤ d) →
      List.Chain (fun a b => a + danceSwitchInterval ≤ b) lb (cyclerTrace events s) := by
  induction events with
  | nil => intro s lb _ _; exact List.Chain.nil
  | cons hd rest ih =>
    intro s lb hsorted hdl
    obtain ⟨t, e⟩ := hd
    have hmap : ((t, e) :: rest).map Prod.fst = t :: rest.map Prod.fst := rfl
    rw [hmap] at hsorted
    obtain ⟨hlbt, hsorted'⟩ := List.chain'_cons.mp hsorted
    have hshrunk := chain'_le_shrink hlbt hsorted'
    cases e with
    | setMusic b =>
      show List.Chain _ lb
        (cyclerTrace rest (effectRun t { s with isMusic := b }))
      apply ih _ lb hshrunk
      intro d hdeq
      have := effectRun_deadline t _ d hdeq
      omega
    | setOverride m =>
      show List.Chain _ lb
        (cyclerTrace rest (effectRun t { s with manualAnimation := m }))
      apply ih _ lb hshrunk
      intro d hdeq
      have := effectRun_deadline t _ d hdeq
      omega
    | timerFire =>
      cases hdead : s.timerDeadline with
      | none =>
        have hstep : cyclerStep t .timerFire s = (s, false) := by
          simp [cyclerStep, hdead]
        simp only [cyclerTrace, hstep, Bool.false_eq_true, if_false]
        exact ih s lb hshrunk hdl
      | some d =>
        by_cases hlt : t < d
        · have hstep : cyclerStep t .timerFire s = (s, false) := by
            simp [cyclerStep, hdead, hlt]
          simp only [cyclerTrace, hstep, Bool.false_eq_true, if_false]
          exact ih s lb hshrunk hdl
        · have hstep : cyclerStep t .timerFire s =
              (effectRun t
                { s with danceIndex := (s.danceIndex + 1) % danceAnimations.length },
                true) := by
            simp [cyclerStep, hdead, hlt]
          simp only [cyclerTrace, hstep, if_true]
          have hfirst : lb + danceSwitchInterval ≤ t := by
            have := hdl d hdead
            omega
          refine List.Chain.cons hfirst (ih _ t hsorted' ?_)
          intro d' hdeq
          have := effectRun_deadline t _ d' hdeq
          omega

/-- Example for C7's witness: a mounted component (no armed interval),
music starting at time 0 and the interval firing at 20000. -/
def cyclerExampleState : DanceCyclerState :=
  { danceIndex := 0, timerDeadline := none, isMusic := false, mixerReady := true,
    manualAnimation := "" }

/-- Events of the witness scenario, with nondecreasing times. -/
def cyclerExampleEvents : List (Int × DanceCyclerEvent) :=
  [(0, .setMusic true), (20000, .timerFire)]

/-- C7. Over any event trace with nondecreasing times starting from a
state with no armed interval, consecutive index advances are at least one
configured interval (15000 ms) apart; an advance moves the index forward
by exactly one modulo the dance-list length; a music-stop or a non-empty
manual override leaves no armed interval (the effect's cleanup cancels the
timer within that very tick); and with no armed interval a timer event
does nothing. -/
theorem danceCycler_spec :
    (∀ (events : List (Int × DanceCyclerEvent)) (s0 : DanceCyclerState),
      List.Chain' (· ≤ ·) (events.map Prod.fst) →
      s0.timerDeadline = none →
      List.Chain' (fun a b => a + danceSwitchInterval ≤ b) (cyclerTrace events s0))
    ∧ (∀ (now : Int) (s : DanceCyclerState) (d : Int),
        s.timerDeadline = some d → d ≤ now →
        (cyclerStep now .timerFire s).1.danceIndex
            = (s.danceIndex + 1) % danceAnimations.length
          ∧ (cyclerStep now .timerFire s).2 = true)
    ∧ (∀ (now : Int) (s : DanceCyclerState),
        (cyclerStep now (.setMusic false) s).1.timerDeadline = none)
    ∧ (∀ (now : Int) (s : DanceCyclerState) (m : String), m ≠ "" →
        (cyclerStep now (.setOverride m) s).1.timerDeadline = none)
    ∧ (∀ (now : Int) (s : DanceCyclerState),
        s.timerDeadline = none → cyclerStep now .timerFire s = (s, false)) := by
  refine ⟨?_, ?_, ?_, ?_, ?_⟩
  · intro events s0 hsorted hnone
    cases events with
    | nil => exact List.chain'_nil
    | cons hd rest =>
      obtain ⟨t0, e0⟩ := hd
      have hchain := cyclerTrace_chain ((t0, e0) :: rest) s0 t0 ?_ ?_
      · have h' : List.Chain' (fun a b => a + danceSwitchInterval ≤ b)
            (t0 :: cyclerTrace ((t0, e0) :: rest) s0) := hchain
        exact h'.tail
      · have hmap : ((t0, e0) :: rest).map Prod.fst = t0 :: rest.map Prod.fst := rfl
        rw [hmap] at hsorted ⊢
        exact List.chain'_cons.mpr ⟨le_refl t0, hsorted⟩
      · intro d hdeq
        rw [hnone] at hdeq
        cases hdeq
  · intro now s d hdead hle
    have hnotlt : ¬ now < d := by omega
    constructor
    · simp only [cyclerStep, hdead, hnotlt, if_false]
      unfold effectRun
      split <;> rfl
    · simp [cyclerStep, hdead, hnotlt]
  · intro now s
    have hg : scheduleGuard { s with isMusic := false } = false := by
      simp [scheduleGuard]
    simp [cyclerStep, effectRun, hg]
  · intro now s m hm
    have hg : scheduleGuard { s with manualAnimation := m } = false := by
      simp [scheduleGuard, hm]
    simp [cyclerStep, effectRun, hg]
  · intro now s hnone
    simp [cyclerStep, hnone]

/-- Witness for C7: the first conjunct applied to the concrete two-event
scenario (music starts at 0, interval fires at 20000, one advance). -/
theorem danceCycler_spec_witness :
    (List.Chain' (· ≤ ·) (cyclerExampleEvents.map Prod.fst)
      ∧ cyclerExampleState.timerDeadline = none)
    ∧ List.Chain' (fun a b => a + danceSwitchInterval ≤ b)
        (cyclerTrace cyclerExampleEvents cyclerExampleState) :=
  have hch : List.Chain' (· ≤ ·) (cyclerExampleEvents.map Prod.fst) :=
    List.chain'_cons.mpr ⟨by norm_num, List.chain'_singleton _⟩
  ⟨⟨hch, rfl⟩, danceCycler_spec.1 cyclerExampleEvents cyclerExampleState hch rfl⟩

end Wify
